import Mathlib

/-!
Verification of the webhook event-processing pipeline of `gusto-webhook-guide`.

The definitions below are a shallow embedding of the Go source:
  - `internal/worker/pool.go` (the worker loop and `processEvent`),
  - the `IdempotencyStore` (mutex-guarded `map[string]bool`, modelled by its
    key set as a duplicate-free list in insertion order),
  - the signature-verification middleware (`VerifySignature`),
  - the webhook HTTP handler (`HandleWebhook`) with its non-blocking enqueue
    onto the buffered job channel.

External library effects (JSON decoding, the HTTP client call, HMAC-SHA256)
are passed in as explicit function parameters or data, so every embedded
operation is a pure executable function of its inputs.
-/

/-- The retry budget constant `maxRetries = 5` from `pool.go`. -/
def maxRetries : Nat := 5

/-- `models.WebhookEvent`: the parsed webhook notification.  The opaque
`payload` blob is kept as a raw string. -/
structure WebhookEvent where
  UUID : String
  EventType : String
  ResourceType : String
  ResourceUUID : String
  EntityType : String
  EntityUUID : String
  Payload : String
deriving DecidableEq, Repr

/-- `models.Job`: the queue-resident unit of work, raw payload bytes plus the
retry counter (`Attempts`, non-negative in every reachable state). -/
structure Job where
  Payload : String
  Attempts : Nat
deriving DecidableEq, Repr

/-- The key set of the `IdempotencyStore` (`map[string]bool` under a mutex).
A Go map holds at most one entry per key; we model the store by its keys as a
duplicate-free list in insertion order, so append-only growth is visible. -/
abbrev IdempotencyStore := List String

/-- `IdempotencyStore.Has`: membership check for an event UUID. -/
def IdempotencyStore.Has (s : IdempotencyStore) (key : String) : Bool :=
  s.contains key

/-- `IdempotencyStore.Set`: `s.store[key] = true`.  On the key set this is
union with `{key}`; a fresh key is appended, an existing key is a no-op. -/
def IdempotencyStore.Set (s : IdempotencyStore) (key : String) : IdempotencyStore :=
  if s.contains key then s else s ++ [key]

/-- Classification of one invocation of the processing operation, as the
worker observes it through `errors.As`: `err == nil` (success), a
`*ErrPermanent`, a `*ErrTransient`, or any other error value (unknown). -/
inductive Outcome where
  | success
  | permanent
  | transient
  | unknown
deriving DecidableEq, Repr

/-- The observable effect of one pass of the worker loop body on one dequeued
job: the resulting store, whether `processEvent` was invoked, and the job
handed to the detached retry goroutine, if any. -/
structure WorkerEffect where
  store : IdempotencyStore
  processed : Bool
  requeued : Option Job
deriving DecidableEq, Repr

/-- The body of the `for job := range p.JobQueue` loop in `pool.go` for a
single dequeued job.  `parse` stands for `json.Unmarshal` into a
`WebhookEvent`; `process` stands for `p.processEvent` together with the
`errors.As` classification of its result. -/
def workerStep (parse : String → Option WebhookEvent)
    (process : WebhookEvent → Outcome)
    (store : IdempotencyStore) (job : Job) : WorkerEffect :=
  match parse job.Payload with
  | none => ⟨store, false, none⟩
  | some event =>
    if store.Has event.UUID then
      ⟨store, false, none⟩
    else
      match process event with
      | Outcome.success => ⟨store.Set event.UUID, true, none⟩
      | Outcome.permanent => ⟨store.Set event.UUID, true, none⟩
      | Outcome.transient =>
        if job.Attempts + 1 < maxRetries then
          ⟨store, true, some ⟨job.Payload, job.Attempts + 1⟩⟩
        else
          ⟨store.Set event.UUID, true, none⟩
      | Outcome.unknown => ⟨store, true, none⟩

/-- Runs the worker loop on one job, following the requeue edge each time the
transient branch hands the incremented job back to the queue; `fuel` bounds
the number of loop iterations.  Returns the final store and the total number
of `processEvent` invocations. -/
def runJob (parse : String → Option WebhookEvent)
    (process : WebhookEvent → Outcome)
    (fuel : Nat) (store : IdempotencyStore) (job : Job) :
    IdempotencyStore × Nat :=
  match fuel with
  | 0 => (store, 0)
  | fuel + 1 =>
    let eff := workerStep parse process store job
    match eff.requeued with
    | none => (eff.store, if eff.processed then 1 else 0)
    | some j =>
      let rest := runJob parse process fuel eff.store j
      (rest.1, (if eff.processed then 1 else 0) + rest.2)

/-- `strings.Contains(s, pat)` from the Go standard library, on the
underlying character lists: `pat` occurs as a contiguous substring of `s`
(the empty pattern always occurs). -/
def stringsContains (s pat : String) : Bool :=
  go pat.data s.data
where
  go (pat l : List Char) : Bool :=
    match l with
    | [] => pat.isEmpty
    | _ :: t => pat.isPrefixOf l || go pat t

/-- One entry of the Gusto API structured error body
`{errors: [{category, message}]}`. -/
structure GustoError where
  category : String
  message : String
deriving DecidableEq, Repr

/-- The result the HTTP client hands back to `processEvent`: either a
transport-level failure to obtain any response (`client.Do` returned an
error), or a response with a status code and a body.  The body is `none`
when it does not unmarshal as a `GustoAPIErrorResponse`, and `some errs`
with the decoded `errors` array otherwise. -/
inductive HttpResult where
  | failure
  | response (status : Nat) (body : Option (List GustoError))
deriving DecidableEq, Repr

/-- `processEvent` from `pool.go`: only events whose type contains
`company.updated` trigger the remote API call (whose result is the `http`
argument); every other event type falls through to `return nil`.  On a
response with status `>= 400` the structured error body is inspected: an
unparseable body is transient, a first entry with a server/rate-limit/system
category is transient, any other first entry is permanent, and an empty
errors array falls through to `return nil`. -/
def processEvent (event : WebhookEvent) (http : HttpResult) : Outcome :=
  if stringsContains event.EventType "company.updated" then
    match http with
    | HttpResult.failure => Outcome.transient
    | HttpResult.response status body =>
      if status ≥ 400 then
        match body with
        | none => Outcome.transient
        | some errs =>
          match errs with
          | [] => Outcome.success
          | e :: _ =>
            if e.category = "server_error" ∨ e.category = "rate_limit_error"
                ∨ e.category = "system_error" then
              Outcome.transient
            else
              Outcome.permanent
      else
        Outcome.success
  else
    Outcome.success

/-- The decision of the `VerifySignature` middleware: pass the request to the
next handler, or answer 403 for a missing header or for a signature that does
not match the computed digest. -/
inductive VerifyDecision where
  | accept
  | rejectMissing
  | rejectInvalid
deriving DecidableEq, Repr

/-- The signature-verification middleware over byte strings (`List Nat`,
one element per byte).  `hmacHex secret body` stands for
`hex.EncodeToString(HMAC-SHA256(secret, body))` computed by the Go crypto
library; the middleware itself only compares byte strings.  An absent
`X-Gusto-Signature` header reads as the empty byte string, exactly as
`r.Header.Get` returns `""`.  The empty-secret setup bypass is checked first,
then the missing-header check, then the constant-time comparison against the
computed digest (constant-time equality of byte strings is equality). -/
def VerifySignature (hmacHex : List Nat → List Nat → List Nat)
    (secret body signature : List Nat) : VerifyDecision :=
  if secret = [] then
    VerifyDecision.accept
  else if signature = [] then
    VerifyDecision.rejectMissing
  else if signature = hmacHex secret body then
    VerifyDecision.accept
  else
    VerifyDecision.rejectInvalid

/-- Flip bit `k` of byte `i` of a byte string. -/
def flipBit (bs : List Nat) (i k : Nat) : List Nat :=
  bs.set i (bs.getD i 0 ^^^ 2 ^ k)

/-- The buffered job channel `make(chan models.Job, maxQueueSize)`, viewed
as a bounded FIFO: the buffered items in arrival order plus the capacity. -/
structure BoundedQueue where
  capacity : Nat
  items : List Job
deriving DecidableEq, Repr

/-- The `select { case h.JobQueue <- job: ... default: ... }` send: with
buffer space free the job is appended and the send reports success; with the
buffer full the default branch is taken at once, leaving the queue unchanged.
-/
def tryEnqueue (q : BoundedQueue) (j : Job) : BoundedQueue × Bool :=
  if q.items.length < q.capacity then
    (⟨q.capacity, q.items ++ [j]⟩, true)
  else
    (q, false)

/-- `HandleWebhook` from `internal/webhooks/handler.go`.  `body` is the raw
request body recovered from the context (`none` when the middleware did not
store it, answered 500).  `parseObj` stands for `json.Unmarshal` into
`map[string]any`, returning the set of top-level keys of the JSON object, or
`none` for invalid JSON (answered 400).  A payload with a
`verification_token` key is acknowledged with 200 and never queued; a payload
with an `event_type` key becomes a job with `Attempts = 0` and is enqueued
non-blockingly, answering 202 on success and 503 when the queue is full; any
other shape is answered 400.  Returns the resulting queue and the HTTP
status code. -/
def HandleWebhook (parseObj : String → Option (List String))
    (q : BoundedQueue) (body : Option String) : BoundedQueue × Nat :=
  match body with
  | none => (q, 500)
  | some bodyBytes =>
    match parseObj bodyBytes with
    | none => (q, 400)
    | some keys =>
      if keys.contains "verification_token" then
        (q, 200)
      else if keys.contains "event_type" then
        let sent := tryEnqueue q ⟨bodyBytes, 0⟩
        if sent.2 then (sent.1, 202) else (sent.1, 503)
      else
        (q, 400)

/-! ### Equation lemmas for the worker loop body -/

lemma workerStep_none {parse : String → Option WebhookEvent}
    {process : WebhookEvent → Outcome} {store : IdempotencyStore} {job : Job}
    (hp : parse job.Payload = none) :
    workerStep parse process store job = ⟨store, false, none⟩ := by
  simp [workerStep, hp]

lemma workerStep_dup {parse : String → Option WebhookEvent}
    {process : WebhookEvent → Outcome} {store : IdempotencyStore} {job : Job}
    {event : WebhookEvent}
    (hp : parse job.Payload = some event) (hh : store.Has event.UUID = true) :
    workerStep parse process store job = ⟨store, false, none⟩ := by
  simp [workerStep, hp, hh]

lemma workerStep_success {parse : String → Option WebhookEvent}
    {process : WebhookEvent → Outcome} {store : IdempotencyStore} {job : Job}
    {event : WebhookEvent}
    (hp : parse job.Payload = some event) (hh : store.Has event.UUID = false)
    (hpr : process event = Outcome.success) :
    workerStep parse process store job = ⟨store.Set event.UUID, true, none⟩ := by
  simp [workerStep, hp, hh, hpr]

lemma workerStep_permanent {parse : String → Option WebhookEvent}
    {process : WebhookEvent → Outcome} {store : IdempotencyStore} {job : Job}
    {event : WebhookEvent}
    (hp : parse job.Payload = some event) (hh : store.Has event.UUID = false)
    (hpr : process event = Outcome.permanent) :
    workerStep parse process store job = ⟨store.Set event.UUID, true, none⟩ := by
  simp [workerStep, hp, hh, hpr]

lemma workerStep_transient_requeue {parse : String → Option WebhookEvent}
    {process : WebhookEvent → Outcome} {store : IdempotencyStore} {job : Job}
    {event : WebhookEvent}
    (hp : parse job.Payload = some event) (hh : store.Has event.UUID = false)
    (hpr : process event = Outcome.transient) (ha : job.Attempts + 1 < maxRetries) :
    workerStep parse process store job
      = ⟨store, true, some ⟨job.Payload, job.Attempts + 1⟩⟩ := by
  simp [workerStep, hp, hh, hpr, ha]

lemma workerStep_transient_exhaust {parse : String → Option WebhookEvent}
    {process : WebhookEvent → Outcome} {store : IdempotencyStore} {job : Job}
    {event : WebhookEvent}
    (hp : parse job.Payload = some event) (hh : store.Has event.UUID = false)
    (hpr : process event = Outcome.transient) (ha : ¬ job.Attempts + 1 < maxRetries) :
    workerStep parse process store job = ⟨store.Set event.UUID, true, none⟩ := by
  simp [workerStep, hp, hh, hpr, ha]

lemma workerStep_unknown {parse : String → Option WebhookEvent}
    {process : WebhookEvent → Outcome} {store : IdempotencyStore} {job : Job}
    {event : WebhookEvent}
    (hp : parse job.Payload = some event) (hh : store.Has event.UUID = false)
    (hpr : process event = Outcome.unknown) :
    workerStep parse process store job = ⟨store, true, none⟩ := by
  simp [workerStep, hp, hh, hpr]

/-! ### Store lemmas -/

lemma Set_contains_self (s : IdempotencyStore) (k : String) :
    (s.Set k).contains k = true := by
  unfold IdempotencyStore.Set
  split
  next h => exact h
  next h => simp

lemma Set_contains_mono (s : IdempotencyStore) (k k2 : String)
    (h : s.contains k2 = true) : (s.Set k).contains k2 = true := by
  unfold IdempotencyStore.Set
  split
  next => exact h
  next =>
    simp at h ⊢
    exact Or.inl h

lemma Set_count_one (s : IdempotencyStore) (k : String)
    (h : s.contains k = false) : (s.Set k).count k = 1 := by
  have hm : k ∉ s := by simpa using h
  unfold IdempotencyStore.Set
  rw [if_neg (by simp [hm])]
  simp [List.count_append, List.count_eq_zero]
  exact hm

lemma workerStep_store_mono (parse : String → Option WebhookEvent)
    (process : WebhookEvent → Outcome) (store : IdempotencyStore) (job : Job)
    (key : String) (h : store.contains key = true) :
    (workerStep parse process store job).store.contains key = true := by
  cases hp : parse job.Payload with
  | none => rw [workerStep_none hp]; exact h
  | some event =>
    cases hh : store.Has event.UUID with
    | true => rw [workerStep_dup hp hh]; exact h
    | false =>
      cases hpr : process event with
      | success => rw [workerStep_success hp hh hpr]; exact Set_contains_mono _ _ _ h
      | permanent => rw [workerStep_permanent hp hh hpr]; exact Set_contains_mono _ _ _ h
      | transient =>
        by_cases ha : job.Attempts + 1 < maxRetries
        · rw [workerStep_transient_requeue hp hh hpr ha]; exact h
        · rw [workerStep_transient_exhaust hp hh hpr ha]; exact Set_contains_mono _ _ _ h
      | unknown => rw [workerStep_unknown hp hh hpr]; exact h

/-! ### Concrete fixtures used by witness theorems -/

/-- A concrete event of a type that is not `company.updated`. -/
def evA : WebhookEvent :=
  ⟨"uuid-1", "company.created", "Company", "res-1", "", "", ""⟩

/-- A concrete event whose type triggers the remote API call. -/
def evU : WebhookEvent :=
  ⟨"uuid-2", "company.updated", "Company", "res-2", "", "", ""⟩

/-- A concrete stand-in for `json.Unmarshal` into `WebhookEvent`: exactly the
payload `"payload-1"` decodes, to `evA`. -/
def parseA : String → Option WebhookEvent :=
  fun s => if s = "payload-1" then some evA else none

/-- A processing operation that always succeeds (`err == nil`). -/
def processSuccess : WebhookEvent → Outcome := fun _ => Outcome.success

/-- A processing operation that always fails transiently. -/
def processTransient : WebhookEvent → Outcome := fun _ => Outcome.transient

/-- C9: the key set of the IdempotencyStore grows monotonically: one pass of
the worker loop preserves every existing entry, `Set` either leaves the store
unchanged or appends the single new key (so no entry is ever removed or
updated), `Set` preserves every existing entry, and `Has` is the pure
membership predicate on the keys. -/
theorem idempotencyStore_monotone (parse : String → Option WebhookEvent)
    (process : WebhookEvent → Outcome) (store : IdempotencyStore) (job : Job)
    (key : String) (h : store.contains key = true) :
    (workerStep parse process store job).store.contains key = true
    ∧ (∀ (s : IdempotencyStore) (k : String), s.Set k = s ∨ s.Set k = s ++ [k])
    ∧ (∀ (s : IdempotencyStore) (k k2 : String),
        s.contains k2 = true → (s.Set k).contains k2 = true)
    ∧ (∀ (s : IdempotencyStore) (k : String), s.Has k = true ↔ k ∈ s) := by
  refine ⟨workerStep_store_mono parse process store job key h, ?_, ?_, ?_⟩
  · intro s k
    unfold IdempotencyStore.Set
    split
    · exact Or.inl rfl
    · exact Or.inr rfl
  · exact Set_contains_mono
  · intro s k
    simp [IdempotencyStore.Has]

/-- Witness for C9 at a concrete store, job and key. -/
theorem idempotencyStore_monotone_witness :
    (IdempotencyStore.Has ["uuid-1"] "uuid-1" = true)
    ∧ (workerStep parseA processSuccess ["uuid-1"] ⟨"payload-1", 0⟩).store.contains
        "uuid-1" = true :=
  ⟨by decide,
   (idempotencyStore_monotone parseA processSuccess ["uuid-1"] ⟨"payload-1", 0⟩
      "uuid-1" (by decide)).1⟩

/-- C4: the worker's effect on the IdempotencyStore is a function of the
outcome of the dequeued job: an unparseable payload leaves the store
untouched (and skips processing), and for a parsed, non-duplicate event a
success, a permanent failure, or a transient failure that exhausts the retry
budget each writes the event's UUID, while an unknown failure leaves the
store unchanged. -/
theorem worker_store_effect_by_outcome (parse : String → Option WebhookEvent)
    (process : WebhookEvent → Outcome) (store : IdempotencyStore) (job : Job) :
    (parse job.Payload = none →
      workerStep parse process store job = ⟨store, false, none⟩)
    ∧ ∀ event, parse job.Payload = some event → store.Has event.UUID = false →
        ((process event = Outcome.success →
            (workerStep parse process store job).store = store.Set event.UUID)
         ∧ (process event = Outcome.permanent →
            (workerStep parse process store job).store = store.Set event.UUID)
         ∧ (process event = Outcome.transient → maxRetries ≤ job.Attempts + 1 →
            (workerStep parse process store job).store = store.Set event.UUID)
         ∧ (process event = Outcome.unknown →
            (workerStep parse process store job).store = store)) := by
  constructor
  · intro hp
    exact workerStep_none hp
  · intro event hp hh
    refine ⟨?_, ?_, ?_, ?_⟩
    · intro hpr
      rw [workerStep_success hp hh hpr]
    · intro hpr
      rw [workerStep_permanent hp hh hpr]
    · intro hpr ha
      rw [workerStep_transient_exhaust hp hh hpr (by omega)]
    · intro hpr
      rw [workerStep_unknown hp hh hpr]

/-- Witness for C4: a successfully processed fresh event writes its UUID. -/
theorem worker_store_effect_by_outcome_witness :
    (parseA "payload-1" = some evA)
    ∧ (workerStep parseA processSuccess [] ⟨"payload-1", 0⟩).store
        = IdempotencyStore.Set [] evA.UUID :=
  ⟨by decide,
   ((worker_store_effect_by_outcome parseA processSuccess [] ⟨"payload-1", 0⟩).2
      evA (by decide) (by decide)).1 rfl⟩

/-- C3 counterexample: a transient failure observed at `Attempts = 4 < maxRetries`
is dead-lettered (no requeue, UUID committed), because the code increments
first and tests `Attempts < maxRetries` on the incremented value. -/
theorem transient_routing_counterexample :
    (4 : Nat) < maxRetries
    ∧ (workerStep parseA processTransient [] ⟨"payload-1", 4⟩).requeued = none
    ∧ (workerStep parseA processTransient [] ⟨"payload-1", 4⟩).store
        = IdempotencyStore.Set [] evA.UUID := by
  refine ⟨by decide, ?_, ?_⟩ <;> rfl

/-- C3 (amended): for a dequeued, parsed, non-duplicate job with a transient
outcome, the Processing-to-Requeued transition is taken exactly when the
incremented counter `Attempts + 1` is strictly below `maxRetries`; on that
transition the job is handed to the retry scheduler with `Attempts`
incremented and the store untouched, and otherwise the job is dead-lettered
with its UUID committed to the store. -/
theorem transient_routing (parse : String → Option WebhookEvent)
    (process : WebhookEvent → Outcome) (store : IdempotencyStore) (job : Job)
    (event : WebhookEvent)
    (hp : parse job.Payload = some event) (hh : store.Has event.UUID = false)
    (hpr : process event = Outcome.transient) :
    ((workerStep parse process store job).requeued
        = some ⟨job.Payload, job.Attempts + 1⟩ ↔ job.Attempts + 1 < maxRetries)
    ∧ (job.Attempts + 1 < maxRetries →
        (workerStep parse process store job).store = store)
    ∧ (maxRetries ≤ job.Attempts + 1 →
        (workerStep parse process store job).requeued = none
        ∧ (workerStep parse process store job).store = store.Set event.UUID) := by
  refine ⟨⟨?_, ?_⟩, ?_, ?_⟩
  · intro hr
    by_contra ha
    rw [workerStep_transient_exhaust hp hh hpr ha] at hr
    exact Option.noConfusion hr
  · intro ha
    rw [workerStep_transient_requeue hp hh hpr ha]
  · intro ha
    rw [workerStep_transient_requeue hp hh hpr ha]
  · intro ha
    rw [workerStep_transient_exhaust hp hh hpr (by omega)]
    exact ⟨rfl, rfl⟩

/-- Witness for the amended C3: at `Attempts = 0` the transient job is
requeued with `Attempts = 1` and the store stays empty. -/
theorem transient_routing_witness :
    (parseA "payload-1" = some evA)
    ∧ (0 : Nat) + 1 < maxRetries
    ∧ (workerStep parseA processTransient [] ⟨"payload-1", 0⟩).requeued
        = some ⟨"payload-1", 1⟩
    ∧ (workerStep parseA processTransient [] ⟨"payload-1", 0⟩).store = [] := by
  refine ⟨by decide, by decide, ?_, ?_⟩
  · exact (transient_routing parseA processTransient [] ⟨"payload-1", 0⟩ evA rfl
      (by decide) rfl).1.mpr (by decide)
  · exact (transient_routing parseA processTransient [] ⟨"payload-1", 0⟩ evA rfl
      (by decide) rfl).2.1 (by decide)

/-- C1: a dequeued job whose payload parses to an already-committed UUID is
discarded before processing (store unchanged, `processEvent` not invoked, no
requeue); consequently, delivering the same UUID twice sequentially — the
first delivery processing successfully — invokes processing exactly once
across the two deliveries and leaves exactly one store entry for the UUID. -/
theorem duplicate_delivery_once (parse : String → Option WebhookEvent)
    (process : WebhookEvent → Outcome) (store : IdempotencyStore)
    (j1 j2 : Job) (event : WebhookEvent)
    (h1 : parse j1.Payload = some event) (h2 : parse j2.Payload = some event) :
    (store.Has event.UUID = true →
      workerStep parse process store j1 = ⟨store, false, none⟩)
    ∧ (store.Has event.UUID = false → process event = Outcome.success →
        (workerStep parse process store j1).processed = true
        ∧ (workerStep parse process
            (workerStep parse process store j1).store j2).processed = false
        ∧ (workerStep parse process
            (workerStep parse process store j1).store j2).store
            = store.Set event.UUID
        ∧ (store.Set event.UUID).count event.UUID = 1) := by
  constructor
  · intro hh
    exact workerStep_dup h1 hh
  · intro hh hs
    rw [workerStep_success h1 hh hs]
    have hdup : (IdempotencyStore.Set store event.UUID).Has event.UUID = true :=
      Set_contains_self store event.UUID
    rw [workerStep_dup h2 hdup]
    exact ⟨rfl, rfl, rfl, Set_count_one store event.UUID hh⟩

/-- Witness for C1: the second delivery of `evA` is dropped unprocessed and
the store holds the UUID exactly once. -/
theorem duplicate_delivery_once_witness :
    (parseA "payload-1" = some evA)
    ∧ (IdempotencyStore.Has [] evA.UUID = false)
    ∧ (workerStep parseA processSuccess [] ⟨"payload-1", 0⟩).processed = true
    ∧ (workerStep parseA processSuccess
        (workerStep parseA processSuccess [] ⟨"payload-1", 0⟩).store
        ⟨"payload-1", 0⟩).processed = false
    ∧ (workerStep parseA processSuccess
        (workerStep parseA processSuccess [] ⟨"payload-1", 0⟩).store
        ⟨"payload-1", 0⟩).store = IdempotencyStore.Set [] evA.UUID
    ∧ (IdempotencyStore.Set [] evA.UUID).count evA.UUID = 1 := by
  have h := (duplicate_delivery_once parseA processSuccess [] ⟨"payload-1", 0⟩
    ⟨"payload-1", 0⟩ evA rfl rfl).2 (by decide) rfl
  exact ⟨by decide, by decide, h.1, h.2.1, h.2.2.1, h.2.2.2⟩

/-- For a job whose payload parses to an uncommitted event and whose
processing is always transient, the worker/retry loop started at attempt
counter `a < maxRetries` performs exactly `maxRetries - a` further processing
invocations and ends with the UUID committed, for any sufficient fuel. -/
lemma runJob_always_transient (parse : String → Option WebhookEvent)
    (process : WebhookEvent → Outcome) (event : WebhookEvent) (payload : String)
    (hp : parse payload = some event) (ht : process event = Outcome.transient) :
    ∀ fuel a store, IdempotencyStore.Has store event.UUID = false →
      a < maxRetries → maxRetries - a ≤ fuel →
      runJob parse process fuel store ⟨payload, a⟩
        = (store.Set event.UUID, maxRetries - a) := by
  intro fuel
  induction fuel with
  | zero =>
    intro a store _ ha hf
    exfalso
    omega
  | succ fuel ih =>
    intro a store hs ha _
    have hm : maxRetries = 5 := rfl
    by_cases hlt : a + 1 < maxRetries
    · have heq := @workerStep_transient_requeue parse process store ⟨payload, a⟩
        event hp hs ht hlt
      simp only [runJob, heq]
      rw [ih (a + 1) store hs hlt (by omega)]
      have harith : (if True then 1 else 0) + (maxRetries - (a + 1))
          = maxRetries - a := by
        simp only [if_true]
        omega
      rw [harith]
    · have heq := @workerStep_transient_exhaust parse process store ⟨payload, a⟩
        event hp hs ht hlt
      simp only [runJob, heq]
      have h1 : maxRetries - a = 1 := by omega
      rw [h1]
      rfl

/-- C2: a job entering with `Attempts = 0` whose processing always fails
transiently is processed exactly `maxRetries` times in total by the
worker/retry loop, after which its UUID is written to the store; the result
is the same for every fuel bound `≥ maxRetries`, so the loop has terminated
and the job is never requeued again. -/
theorem retry_budget (parse : String → Option WebhookEvent)
    (process : WebhookEvent → Outcome) (store : IdempotencyStore) (job : Job)
    (event : WebhookEvent)
    (hp : parse job.Payload = some event)
    (ht : process event = Outcome.transient)
    (h0 : job.Attempts = 0)
    (hs : IdempotencyStore.Has store event.UUID = false) :
    ∀ fuel, maxRetries ≤ fuel →
      runJob parse process fuel store job = (store.Set event.UUID, maxRetries) := by
  intro fuel hf
  obtain ⟨payload, a⟩ := job
  dsimp only at hp h0
  subst h0
  have key := runJob_always_transient parse process event payload hp ht fuel 0
    store hs (by decide) (by simpa using hf)
  simpa using key

/-- Witness for C2: the concrete always-transient job is processed exactly
five times and committed. -/
theorem retry_budget_witness :
    (parseA "payload-1" = some evA)
    ∧ maxRetries ≤ 7
    ∧ runJob parseA processTransient 7 [] ⟨"payload-1", 0⟩
        = (IdempotencyStore.Set [] evA.UUID, maxRetries) :=
  ⟨by decide, by decide,
   retry_budget parseA processTransient [] ⟨"payload-1", 0⟩ evA rfl rfl rfl
     (by decide) 7 (by decide)⟩

/-- C5 counterexample: a `company.updated` event whose remote call answers
status 400 with a parseable error body holding an empty `errors` array is
treated as a success by `processEvent` (the code falls through to
`return nil`), so a status `>= 400` is not always a failure classified from
the first error entry. -/
theorem classifier_counterexample :
    processEvent evU (HttpResult.response 400 (some [])) = Outcome.success
    ∧ Outcome.success ≠ Outcome.transient
    ∧ Outcome.success ≠ Outcome.permanent := by
  refine ⟨rfl, by decide, by decide⟩

/-- C5 (amended): for an event whose type contains `company.updated`, the
classification of the remote call is: a transport-level failure is transient;
any status below 400 (in particular any 2xx) is success; a status `>= 400`
with an unparseable body is transient; a status `>= 400` whose structured
body has a first entry with a `server_error`, `rate_limit_error` or
`system_error` category is transient, and with any other first-entry
category is permanent; and a status `>= 400` whose structured body holds an
empty errors array falls through and is treated as success. -/
theorem classifier_characterization (event : WebhookEvent)
    (hc : stringsContains event.EventType "company.updated" = true) :
    processEvent event HttpResult.failure = Outcome.transient
    ∧ (∀ status body, status < 400 →
        processEvent event (HttpResult.response status body) = Outcome.success)
    ∧ (∀ status, 400 ≤ status →
        processEvent event (HttpResult.response status none) = Outcome.transient)
    ∧ (∀ status e rest, 400 ≤ status →
        (e.category = "server_error" ∨ e.category = "rate_limit_error"
          ∨ e.category = "system_error") →
        processEvent event (HttpResult.response status (some (e :: rest)))
          = Outcome.transient)
    ∧ (∀ status e rest, 400 ≤ status →
        ¬(e.category = "server_error" ∨ e.category = "rate_limit_error"
          ∨ e.category = "system_error") →
        processEvent event (HttpResult.response status (some (e :: rest)))
          = Outcome.permanent)
    ∧ (∀ status, 400 ≤ status →
        processEvent event (HttpResult.response status (some []))
          = Outcome.success) := by
  refine ⟨?_, ?_, ?_, ?_, ?_, ?_⟩
  · simp [processEvent, hc]
  · intro status body hst
    simp [processEvent, hc, Nat.not_le.mpr hst]
  · intro status hst
    simp [processEvent, hc, hst]
  · intro status e rest hst hcat
    simp [processEvent, hc, hst, hcat]
  · intro status e rest hst hcat
    simp [processEvent, hc, hst, hcat]
  · intro status hst
    simp [processEvent, hc, hst]

/-- Witness for the amended C5 at concrete inputs. -/
theorem classifier_characterization_witness :
    (stringsContains evU.EventType "company.updated" = true)
    ∧ processEvent evU HttpResult.failure = Outcome.transient
    ∧ processEvent evU (HttpResult.response 200 none) = Outcome.success
    ∧ processEvent evU (HttpResult.response 500 none) = Outcome.transient
    ∧ processEvent evU
        (HttpResult.response 429 (some [⟨"rate_limit_error", "slow down"⟩]))
        = Outcome.transient
    ∧ processEvent evU
        (HttpResult.response 422 (some [⟨"invalid_attribute_value", "bad"⟩]))
        = Outcome.permanent := by
  have h := classifier_characterization evU (by decide)
  exact ⟨by decide, h.1, h.2.1 200 none (by decide),
    h.2.2.1 500 (by decide),
    h.2.2.2.1 429 ⟨"rate_limit_error", "slow down"⟩ [] (by decide)
      (Or.inr (Or.inl rfl)),
    h.2.2.2.2.1 422 ⟨"invalid_attribute_value", "bad"⟩ [] (by decide)
      (by decide)⟩

/-- C10: an event whose type does not contain `company.updated` is processed
successfully without consulting the remote API result at all, and only
`company.updated` events can yield a transient or permanent failure. -/
theorem other_event_types_succeed (event : WebhookEvent) (http : HttpResult)
    (h : stringsContains event.EventType "company.updated" = false) :
    processEvent event http = Outcome.success
    ∧ (∀ http2, processEvent event http = processEvent event http2)
    ∧ (∀ (e2 : WebhookEvent) (h2 : HttpResult),
        processEvent e2 h2 ≠ Outcome.success →
        stringsContains e2.EventType "company.updated" = true) := by
  refine ⟨by simp [processEvent, h], ?_, ?_⟩
  · intro http2
    simp [processEvent, h]
  · intro e2 h2 hne
    by_cases hcc : stringsContains e2.EventType "company.updated" = true
    · exact hcc
    · exfalso
      apply hne
      simp only [Bool.not_eq_true] at hcc
      simp [processEvent, hcc]

/-- Witness for C10: a `company.created` event succeeds against an
arbitrary HTTP result. -/
theorem other_event_types_succeed_witness :
    (stringsContains evA.EventType "company.updated" = false)
    ∧ processEvent evA (HttpResult.response 500 none) = Outcome.success :=
  ⟨by decide,
   (other_event_types_succeed evA (HttpResult.response 500 none) (by decide)).1⟩

/-- XOR with a nonzero mask changes a natural number. -/
lemma xor_pow_ne (b k : Nat) : b ^^^ 2 ^ k ≠ b := by
  intro h
  have h2 : (2 : Nat) ^ k = 0 := by
    have hx := congrArg (fun x => b ^^^ x) h
    simp only [← Nat.xor_assoc, Nat.xor_self, Nat.zero_xor] at hx
    exact hx
  exact absurd h2 (by positivity)

/-- Setting an in-range position to a different value changes a list. -/
lemma set_ne_of_ne : ∀ (bs : List Nat) (i v : Nat), i < bs.length →
    v ≠ bs.getD i 0 → bs.set i v ≠ bs := by
  intro bs
  induction bs with
  | nil =>
    intro i v hi
    simp at hi
  | cons b t ih =>
    intro i v hi hv h
    cases i with
    | zero =>
      simp only [List.set] at h
      exact hv (by simpa [List.getD_cons_zero] using (List.cons.injEq _ _ _ _).mp h |>.1)
    | succ i =>
      simp only [List.set, List.cons.injEq, true_and] at h
      exact ih i v (by simpa using hi) (by simpa [List.getD_cons_succ] using hv) h

/-- A single-bit mutation of a byte string changes it. -/
lemma flipBit_ne (bs : List Nat) (i k : Nat) (hi : i < bs.length) :
    flipBit bs i k ≠ bs := by
  unfold flipBit
  exact set_ne_of_ne bs i _ hi (xor_pow_ne _ _)

/-- A concrete stand-in digest function for the counterexample: the role of
`hex(HMAC-SHA256)` in the refuted statement is only to fix the valid token,
and the empty-secret code path never evaluates the digest at all. -/
def hmacStub : List Nat → List Nat → List Nat := fun _ _ => [97, 97]

/-- C6 counterexample: with the secret unset (empty), a token obtained by a
single-bit mutation of the valid signature is still accepted, because the
setup bypass accepts every request; so rejection of mutated signatures does
not hold for all secrets. -/
theorem signature_verifier_counterexample :
    flipBit (hmacStub [] [98]) 1 0 ≠ hmacStub [] [98]
    ∧ VerifySignature hmacStub [] [98] (flipBit (hmacStub [] [98]) 1 0)
        = VerifyDecision.accept := by
  refine ⟨by decide, rfl⟩

/-- C6 (amended): for every body, every nonempty secret, and every digest
function whose value is a nonempty token (as `hex(HMAC-SHA256)` always is),
the verifier accepts exactly the correct token: it accepts the token equal to
`hmacHex secret body`, rejects every token that differs from it, and in
particular rejects every single-bit mutation of the valid token. -/
theorem signature_verifier_exact (hmacHex : List Nat → List Nat → List Nat)
    (secret body : List Nat) (hsec : secret ≠ [])
    (hdig : hmacHex secret body ≠ []) :
    VerifySignature hmacHex secret body (hmacHex secret body)
      = VerifyDecision.accept
    ∧ (∀ sig, sig ≠ hmacHex secret body →
        VerifySignature hmacHex secret body sig ≠ VerifyDecision.accept)
    ∧ (∀ i k, i < (hmacHex secret body).length →
        VerifySignature hmacHex secret body (flipBit (hmacHex secret body) i k)
          ≠ VerifyDecision.accept) := by
  refine ⟨?_, ?_, ?_⟩
  · unfold VerifySignature
    rw [if_neg hsec, if_neg hdig, if_pos rfl]
  · intro sig hne
    unfold VerifySignature
    rw [if_neg hsec]
    by_cases hm : sig = []
    · rw [if_pos hm]
      intro h
      exact VerifyDecision.noConfusion h
    · rw [if_neg hm, if_neg hne]
      intro h
      exact VerifyDecision.noConfusion h
  · intro i k hi
    unfold VerifySignature
    rw [if_neg hsec]
    have hne := flipBit_ne (hmacHex secret body) i k hi
    by_cases hm : flipBit (hmacHex secret body) i k = []
    · rw [if_pos hm]
      intro h
      exact VerifyDecision.noConfusion h
    · rw [if_neg hm, if_neg hne]
      intro h
      exact VerifyDecision.noConfusion h

/-- Witness for the amended C6 at a concrete secret, body and digest. -/
theorem signature_verifier_exact_witness :
    ([99] : List Nat) ≠ []
    ∧ hmacStub [99] [98] ≠ []
    ∧ VerifySignature hmacStub [99] [98] (hmacStub [99] [98])
        = VerifyDecision.accept
    ∧ VerifySignature hmacStub [99] [98] (flipBit (hmacStub [99] [98]) 0 3)
        ≠ VerifyDecision.accept := by
  have h := signature_verifier_exact hmacStub [99] [98] (by decide) (by decide)
  exact ⟨by decide, by decide, h.1, h.2.2 0 3 (by decide)⟩

/-- C7: with the secret unset the verifier accepts every request, whatever
the signature token is and also when it is absent; with a secret set, a
request with a missing signature token is always rejected with the
403 authentication failure for the missing header. -/
theorem setup_bypass_and_missing_header (hmacHex : List Nat → List Nat → List Nat)
    (body : List Nat) :
    (∀ sig, VerifySignature hmacHex [] body sig = VerifyDecision.accept)
    ∧ (∀ secret, secret ≠ [] →
        VerifySignature hmacHex secret body [] = VerifyDecision.rejectMissing) := by
  constructor
  · intro sig
    unfold VerifySignature
    rw [if_pos rfl]
  · intro secret hsec
    unfold VerifySignature
    rw [if_neg hsec, if_pos rfl]

/-- Witness for C7 at a concrete body, token and secret. -/
theorem setup_bypass_and_missing_header_witness :
    VerifySignature hmacStub [] [98] [1, 2, 3] = VerifyDecision.accept
    ∧ VerifySignature hmacStub [99] [98] [] = VerifyDecision.rejectMissing :=
  ⟨(setup_bypass_and_missing_header hmacStub [98]).1 [1, 2, 3],
   (setup_bypass_and_missing_header hmacStub [98]).2 [99] (by decide)⟩

/-- C8: when the job queue holds its full capacity, `HandleWebhook` answers
503 on the next event without touching the queue (the `default` branch of
the non-blocking `select` fires at once); with free capacity the event body
is appended as a job with `Attempts = 0` and the handler answers 202. -/
theorem admission_control (parseObj : String → Option (List String))
    (q : BoundedQueue) (body : String) (keys : List String)
    (hb : parseObj body = some keys)
    (hv : keys.contains "verification_token" = false)
    (he : keys.contains "event_type" = true) :
    (q.items.length = q.capacity →
      HandleWebhook parseObj q (some body) = (q, 503))
    ∧ (q.items.length < q.capacity →
      HandleWebhook parseObj q (some body)
        = (⟨q.capacity, q.items ++ [⟨body, 0⟩]⟩, 202)) := by
  have hv2 : "verification_token" ∉ keys := by simpa using hv
  have he2 : "event_type" ∈ keys := by simpa using he
  constructor
  · intro hfull
    simp [HandleWebhook, hb, hv2, he2, tryEnqueue, hfull]
  · intro hfree
    simp [HandleWebhook, hb, hv2, he2, tryEnqueue, hfree]

/-- A concrete stand-in for the JSON-object key decoding: every body decodes
to an object with only an `event_type` key. -/
def parseEvtKeys : String → Option (List String) := fun _ => some ["event_type"]

/-- Witness for C8: a full queue of capacity 1 rejects with 503 unchanged,
and an empty queue of capacity 1 accepts with 202. -/
theorem admission_control_witness :
    HandleWebhook parseEvtKeys ⟨1, [⟨"old", 0⟩]⟩ (some "body-1")
      = (⟨1, [⟨"old", 0⟩]⟩, 503)
    ∧ HandleWebhook parseEvtKeys ⟨1, []⟩ (some "body-1")
      = (⟨1, [⟨"body-1", 0⟩]⟩, 202) :=
  ⟨(admission_control parseEvtKeys ⟨1, [⟨"old", 0⟩]⟩ "body-1" ["event_type"]
      rfl (by decide) (by decide)).1 rfl,
   (admission_control parseEvtKeys ⟨1, []⟩ "body-1" ["event_type"]
      rfl (by decide) (by decide)).2 (by decide)⟩
